import Mathlib

/-!
Shallow embedding of `w3af/core/data/kb/knowledge_base.py` (classes
`BasicKnowledgeBase` and `DBKnowledgeBase`).

The knowledge base stores records `(location_a, location_b, uniq_id, blob)`
in a relational table; plugins exchange findings (Info, Vuln, InfoSet, Shell)
through it.  The backing database is modelled as an in-memory list of rows in
insertion order (each SQL statement acts on that list exactly as the query
text says), pickling is the identity (blobs hold the value itself), and the
reentrant lock is dropped because the model is sequential.  Exceptions are
modelled with `Except`; a raised exception discards the candidate state.

The finding value classes (Info, Vuln, InfoSet, Shell) and the DiskSet /
DataContainer collaborators are not part of the source excerpt; their
capability surface is modelled from the spec where noted.
-/

namespace W3afKB

/-- Severity constants from `w3af.core.data.constants.severity`. -/
inductive Severity where
  | INFORMATION
  | LOW
  | MEDIUM
  | HIGH
deriving DecidableEq, Repr

/-- Modelled from the spec: the `Info` finding value (class not in the
excerpt).  It carries a source URL, an implicated parameter name (token), an
optional data-container key set, a content-derived identity string and a
severity. -/
structure InfoData where
  url : String
  tokenName : String
  dc : Option (List String)
  uniqId : String
  severity : Severity
deriving DecidableEq, Repr

/-- Modelled from the spec: an `InfoSet` aggregates one-or-more Info
instances under one grouping rule; `tag` stands for the subclass-specific
grouping attribute. -/
structure InfoSetData where
  infos : List InfoData
  tag : String
deriving DecidableEq, Repr

/-- Modelled from the spec: a `Shell` is a live exploited-session handle;
only the capability surface the store touches is kept. -/
structure ShellData where
  uniqId : String
  url : String
  tokenName : String
  dc : Option (List String)
deriving DecidableEq, Repr

/-- A Python value reaching the knowledge base: a finding (Info, Vuln,
InfoSet, Shell) or a raw value (string, integer, list of strings). -/
inductive Value where
  | info (i : InfoData)
  | vuln (i : InfoData)
  | infoSet (st : InfoSetData)
  | shell (sh : ShellData)
  | rawStr (s : String)
  | rawInt (n : Int)
  | rawList (xs : List String)
deriving DecidableEq, Repr

/-- Modelled from the spec: `isinstance(x, Info)`.  Vuln is "an Info
variant" (subclass); InfoSet and Shell are separate Finding kinds (the
source itself always lists them separately in its isinstance tuples, e.g.
`(Info, InfoSet)` and `(Info, Shell, InfoSet)`). -/
def isInfoInst : Value → Bool
  | .info _ => true
  | .vuln _ => true
  | _ => false

/-- `isinstance(x, (Info, InfoSet, Shell))` as used by `append`, `get`,
and `update`. -/
def isFindingInst : Value → Bool
  | .info _ => true
  | .vuln _ => true
  | .infoSet _ => true
  | .shell _ => true
  | _ => false

/-- `isinstance(x, InfoSet)` as used by `append_uniq_group`. -/
def isInfoSetInst : Value → Bool
  | .infoSet _ => true
  | _ => false

def emptyStr : String := ""

/-- Default Info used only to totalize capability lookups that Python would
reach through duck typing. -/
def dInfo : InfoData := ⟨emptyStr, emptyStr, none, emptyStr, Severity.INFORMATION⟩

/-- Modelled from the spec: every Finding type exposes `get_url()`; an
InfoSet delegates to its first Info. -/
def valueUrl : Value → String
  | .info i => i.url
  | .vuln i => i.url
  | .infoSet st => (st.infos.headD dInfo).url
  | .shell sh => sh.url
  | _ => ""

/-- Modelled from the spec: every Finding type exposes `get_token_name()`. -/
def valueTokenName : Value → String
  | .info i => i.tokenName
  | .vuln i => i.tokenName
  | .infoSet st => (st.infos.headD dInfo).tokenName
  | .shell sh => sh.tokenName
  | _ => ""

/-- Modelled from the spec: every Finding type exposes `get_dc()` (the
data-container, may be absent). -/
def valueDc : Value → Option (List String)
  | .info i => i.dc
  | .vuln i => i.dc
  | .infoSet st => (st.infos.headD dInfo).dc
  | .shell sh => sh.dc
  | _ => none

/-- Separator used in the modelled InfoSet content identity. -/
def uidSep : String := "|"

/-- Modelled from the spec: the InfoSet content identity is derived from the
identities of its member Infos (and its grouping tag). -/
def infoSetUniqId (st : InfoSetData) : String :=
  "infoset<" ++ String.intercalate uidSep (st.infos.map (fun i => i.uniqId)) ++ "#" ++ st.tag ++ ">"

/-- The `get_uniq_id()` method exposed by every Finding type. -/
def valueGetUniqId : Value → String
  | .info i => i.uniqId
  | .vuln i => i.uniqId
  | .infoSet st => infoSetUniqId st
  | .shell sh => sh.uniqId
  | _ => ""

/-- Deterministic stand-in for the Python builtin `hash` of a string. -/
def pyStrHash (s : String) : String :=
  toString (s.data.foldl (fun h c => (h * 31 + c.toNat) % 1000000007) 7)

/-- `DBKnowledgeBase._get_uniq_id`: findings use their own `get_uniq_id()`;
an iterable raw value hashes the concatenation of its elements (a Python
string is iterable, yielding itself); a scalar hashes its value (Python 2
`hash` of a small int is the int). A Shell is Info-like only through Vuln in
the original hierarchy; in this model it falls to the object-hash branch,
modelled deterministically from its identity. -/
def getUniqId : Value → String
  | .info i => i.uniqId
  | .vuln i => i.uniqId
  | .infoSet st => infoSetUniqId st
  | .rawStr s => pyStrHash s
  | .rawList xs => pyStrHash (String.join xs)
  | .rawInt n => toString n
  | .shell sh => pyStrHash sh.uniqId

/-- `hasattr(obj, 'get_severity')` plus `obj.get_severity()`:
`none` models the attribute being absent.  Info and Vuln carry their
severity; an InfoSet reports its first member's severity; a raw value has no
severity concept, and per the spec a Shell is excluded from severity-based
queries. -/
def getSeverity : Value → Option Severity
  | .info i => some i.severity
  | .vuln i => some i.severity
  | .infoSet st => st.infos.head?.map (fun i => i.severity)
  | _ => none

/-- A row of the backing table `(location_a, location_b, uniq_id, pickle)`;
the pickle blob is modelled as the value itself. -/
structure Record where
  location_a : String
  location_b : String
  uniq_id : String
  blob : Value
deriving DecidableEq, Repr

/-- Observer notifications fired by `_notify_observers`: every registered
observer receives the event synchronously, so the model records the ordered
event log. -/
inductive KBEvent where
  | append (a b : String) (v : Value) (ignoreType : Bool)
  | update (old new : Value)
  | addUrl (u : String)
deriving DecidableEq, Repr

/-- State of a `DBKnowledgeBase` instance.  `setupDone` is the
`self.initialized` flag; `tablesCreated` logs every `create_table` call made
for the knowledge-base table; `dbSet` records that `self.db` was assigned;
`urls` and `fuzzableRequests` are the two DiskSet coverage sets (insertion
order kept). -/
structure KBState where
  setupDone : Bool
  dbSet : Bool
  tableName : String
  tablesCreated : List String
  table : List Record
  urls : List String
  fuzzableRequests : List String
  events : List KBEvent
deriving DecidableEq, Repr

/-- Exceptions raised by the store. -/
inductive KBErr where
  | typeError (msg : String)
  | valueError (msg : String)
  | runtimeError (msg : String)
  | dbException (msg : String)
deriving DecidableEq, Repr

/-- A `location_a` argument: already a string, or a named entity whose
`get_name()` is taken (`BasicKnowledgeBase._get_real_name`). -/
inductive LocArg where
  | str (s : String)
  | named (n : String)
deriving DecidableEq, Repr

/-- `BasicKnowledgeBase._get_real_name`. -/
def getRealName : LocArg → String
  | .str s => s
  | .named n => n

def tableNameOf (fresh : String) : String := "knowledge_base_" ++ fresh

/-- `DBKnowledgeBase.setup`: guarded by the `initialized` flag read-and-set
inside the lock; creates the two DiskSets and the randomized backing table.
The random 30-character suffix is supplied as the `fresh` parameter. -/
def setup (fresh : String) (s : KBState) : KBState :=
  if s.setupDone then s
  else
    { s with
      setupDone := true,
      urls := [],
      fuzzableRequests := [],
      dbSet := true,
      tableName := tableNameOf fresh,
      tablesCreated := s.tablesCreated ++ [tableNameOf fresh],
      table := [] }

/-- The `requires_setup` decorator: run `setup()` first when the
`initialized` flag is still unset. -/
def ensure (fresh : String) (s : KBState) : KBState :=
  if s.setupDone then s else setup fresh s

/-- Rows selected by `location_a = ?` (and `location_b = ?` unless the
sub-key is None). -/
def selectRows (t : List Record) (a : String) (lb : Option String) : List Record :=
  match lb with
  | none => t.filter (fun r => r.location_a == a)
  | some b => t.filter (fun r => r.location_a == a && r.location_b == b)

/-- Table after `DELETE FROM t WHERE location_a = ? and location_b = ?`. -/
def clearedAt (t : List Record) (a b : String) : List Record :=
  t.filter (fun r => !(r.location_a == a && r.location_b == b))

/-- `DBKnowledgeBase.clear`. -/
def clear (fresh : String) (la : LocArg) (lb : String) (s : KBState) : KBState :=
  let s := ensure fresh s
  let a := getRealName la
  { s with table := clearedAt s.table a lb }

def appendTypeMsg : String :=
  "You MUST use raw_write/raw_read to store non-info objects to the KnowledgeBase."

/-- `DBKnowledgeBase.append`: type-check unless `ignore_type`, compute the
content identity, INSERT a row, notify observers. -/
def append (fresh : String) (la : LocArg) (lb : String) (v : Value) (ignoreType : Bool)
    (s : KBState) : Except KBErr KBState :=
  let s := ensure fresh s
  if !ignoreType && !isFindingInst v then
    .error (.typeError appendTypeMsg)
  else
    let a := getRealName la
    let uid := getUniqId v
    .ok { s with
          table := s.table ++ [⟨a, lb, uid, v⟩],
          events := s.events ++ [.append a lb v ignoreType] }

def getTypeMsg : String :=
  "Use raw_write and raw_read to query the knowledge base for non-Info objects"

/-- The unpickling loop of `DBKnowledgeBase.get`: raises on the first
non-Finding value when `check_types` is set. -/
def loadLoop (check : Bool) : List Record → Except KBErr (List Value)
  | [] => .ok []
  | r :: rest =>
    if check && !isFindingInst r.blob then
      .error (.typeError getTypeMsg)
    else
      match loadLoop check rest with
      | .error e => .error e
      | .ok vs => .ok (r.blob :: vs)

/-- `DBKnowledgeBase.get`. -/
def get (fresh : String) (la : LocArg) (lb : Option String) (check : Bool)
    (s : KBState) : Except KBErr (List Value × KBState) :=
  let s := ensure fresh s
  let a := getRealName la
  match loadLoop check (selectRows s.table a lb) with
  | .error e => .error e
  | .ok vs => .ok (vs, s)

/-- Result of `raw_read`/`get_one`: the Python empty list, or the single
stored value. -/
inductive ReadOut where
  | emptyList
  | val (v : Value)
deriving DecidableEq, Repr

def rawReadMsg : String :=
  "Incorrect use of raw_write/raw_read, found more than one result."

/-- `DBKnowledgeBase.raw_read`. -/
def raw_read (fresh : String) (la : LocArg) (lb : String) (s : KBState) :
    Except KBErr (ReadOut × KBState) :=
  let s := ensure fresh s
  let a := getRealName la
  match get fresh (LocArg.str a) (some lb) false s with
  | .error e => .error e
  | .ok (vs, s) =>
    if vs.length > 1 then .error (.runtimeError rawReadMsg)
    else
      match vs with
      | [] => .ok (.emptyList, s)
      | v :: _ => .ok (.val v, s)

def getOneMsg : String :=
  "Incorrect use of get_one(), found more than one result."

/-- `DBKnowledgeBase.get_one`: like `raw_read` but with type checking. -/
def get_one (fresh : String) (la : LocArg) (lb : String) (s : KBState) :
    Except KBErr (ReadOut × KBState) :=
  let s := ensure fresh s
  let a := getRealName la
  match get fresh (LocArg.str a) (some lb) true s with
  | .error e => .error e
  | .ok (vs, s) =>
    if vs.length > 1 then .error (.runtimeError getOneMsg)
    else
      match vs with
      | [] => .ok (.emptyList, s)
      | v :: _ => .ok (.val v, s)

def rawWriteMsg : String := "Use append or append_uniq to store vulnerabilities"

/-- `DBKnowledgeBase.raw_write`: rejects Info instances, clears the address
and appends the value with `ignore_type=True`. -/
def raw_write (fresh : String) (la : LocArg) (lb : String) (v : Value) (s : KBState) :
    Except KBErr KBState :=
  let s := ensure fresh s
  if isInfoInst v then
    .error (.typeError rawWriteMsg)
  else
    let a := getRealName la
    let s := clear fresh (LocArg.str a) lb s
    append fresh (LocArg.str a) lb v true s

/-- Number of rows the SQL `WHERE uniq_id = ?` clause matches. -/
def countMatches (t : List Record) (uid : String) : Nat :=
  (t.filter (fun r => r.uniq_id == uid)).length

/-- Effect of `UPDATE t SET pickle = ?, uniq_id = ? WHERE uniq_id = ?`:
every matching row gets the new blob and identity. -/
def rewriteTable (t : List Record) (oldUid newUid : String) (v : Value) : List Record :=
  t.map (fun r => if r.uniq_id == oldUid then { r with uniq_id := newUid, blob := v } else r)

def updateFailMsg : String :=
  "Failed to update() because the original unique_id does not exist in the DB, or the new unique_id is invalid."

/-- `DBKnowledgeBase.update`: runs the UPDATE statement, then raises a
DBException when its rowcount is zero, otherwise notifies observers. -/
def update (fresh : String) (old_info update_info : Value) (s : KBState) :
    Except KBErr KBState :=
  let s := ensure fresh s
  if !isFindingInst old_info || !isFindingInst update_info then
    .error (.typeError appendTypeMsg)
  else
    let oldUid := valueGetUniqId old_info
    let newUid := valueGetUniqId update_info
    if countMatches s.table oldUid > 0 then
      .ok { s with
            table := rewriteTable s.table oldUid newUid update_info,
            events := s.events ++ [.update old_info update_info] }
    else
      .error (.dbException updateFailMsg)

/-- Filter of `get_all_vulns`: keep rows exposing `get_severity` with
severity LOW, MEDIUM or HIGH. -/
def vulnsLoop : List Record → List Value
  | [] => []
  | r :: rest =>
    match getSeverity r.blob with
    | some sev =>
      if sev == Severity.LOW || sev == Severity.MEDIUM || sev == Severity.HIGH then
        r.blob :: vulnsLoop rest
      else vulnsLoop rest
    | none => vulnsLoop rest

/-- `DBKnowledgeBase.get_all_vulns`. -/
def get_all_vulns (fresh : String) (s : KBState) : List Value × KBState :=
  let s := ensure fresh s
  (vulnsLoop s.table, s)

/-- Filter of `get_all_infos`: keep rows exposing `get_severity` with
severity INFORMATION. -/
def infosLoop : List Record → List Value
  | [] => []
  | r :: rest =>
    match getSeverity r.blob with
    | some sev =>
      if sev == Severity.INFORMATION then r.blob :: infosLoop rest
      else infosLoop rest
    | none => infosLoop rest

/-- `DBKnowledgeBase.get_all_infos`. -/
def get_all_infos (fresh : String) (s : KBState) : List Value × KBState :=
  let s := ensure fresh s
  (infosLoop s.table, s)

/-- An argument handed to `add_url`: a URL object or something else. -/
inductive UrlArg where
  | url (u : String)
  | notUrl (descr : String)
deriving DecidableEq, Repr

def addUrlMsg : String := "add_url requires a URL as parameter."

/-- `DBKnowledgeBase.add_url`: type-check, notify observers, then add to the
urls DiskSet, returning whether the URL was previously unknown. -/
def add_url (fresh : String) (arg : UrlArg) (s : KBState) :
    Except KBErr (Bool × KBState) :=
  let s := ensure fresh s
  match arg with
  | .notUrl _ => .error (.typeError addUrlMsg)
  | .url u =>
    let s := { s with events := s.events ++ [.addUrl u] }
    if s.urls.contains u then .ok (false, s)
    else .ok (true, { s with urls := s.urls ++ [u] })

/-- Modelled from the spec: data-container key sets are compared as sets,
order-insensitively (the containers themselves are external to the
excerpt). -/
def keySetEq (xs ys : List String) : Bool :=
  xs.all (fun k => ys.contains k) && ys.all (fun k => xs.contains k)

/-- Two optional data-containers that the VAR filter treats as matching:
both absent, or both present with equal key sets. -/
def dcEquiv : Option (List String) → Option (List String) → Bool
  | none, none => true
  | some xs, some ys => keySetEq xs ys
  | _, _ => false

/-- Two optional data-containers with mismatched presence (one absent, one
present): the VAR filter never matches these. -/
def dcMixed : Option (List String) → Option (List String) → Bool
  | none, some _ => true
  | some _, none => true
  | _, _ => false

/-- The VAR filter-kind key of the FILTERS dict. -/
def filterVAR : String := "VAR"

/-- Loop body of `BasicKnowledgeBase.filter_url`: true when no saved record
shares the candidate URL. -/
def urlLoopNoMatch (candUrl : String) : List Value → Bool
  | [] => true
  | v :: rest =>
    if valueUrl v == candUrl then false else urlLoopNoMatch candUrl rest

/-- `BasicKnowledgeBase.filter_url`. -/
def filter_url (fresh : String) (la : LocArg) (lb : String) (cand : Value)
    (s : KBState) : Except KBErr (Bool × KBState) :=
  match get fresh la (some lb) true s with
  | .error e => .error e
  | .ok (vs, s) => .ok (urlLoopNoMatch (valueUrl cand) vs, s)

/-- Loop body of `BasicKnowledgeBase.filter_var`: true when no saved record
has the same token name, URL and data-container key set (both absent, or
both present with equal key sets). -/
def varLoopNoMatch (candTok candUrl : String) (candDc : Option (List String)) :
    List Value → Bool
  | [] => true
  | v :: rest =>
    if valueTokenName v == candTok && valueUrl v == candUrl then
      match valueDc v, candDc with
      | none, none => false
      | some savedKeys, some candKeys =>
        if keySetEq savedKeys candKeys then false
        else varLoopNoMatch candTok candUrl candDc rest
      | _, _ => varLoopNoMatch candTok candUrl candDc rest
    else varLoopNoMatch candTok candUrl candDc rest

/-- `BasicKnowledgeBase.filter_var`. -/
def filter_var (fresh : String) (la : LocArg) (lb : String) (cand : Value)
    (s : KBState) : Except KBErr (Bool × KBState) :=
  match get fresh la (some lb) true s with
  | .error e => .error e
  | .ok (vs, s) =>
    .ok (varLoopNoMatch (valueTokenName cand) (valueUrl cand) (valueDc cand) vs, s)

def appendUniqTypeMsg : String := "append_uniq requires an info object as parameter."

def appendUniqFilterMsg : String := "append_uniq only knows about URL or VAR filters."

/-- `BasicKnowledgeBase.append_uniq`: reject non-Info candidates and unknown
filter kinds, then (under the kb lock) append when the filter reports no
existing match. -/
def append_uniq (fresh : String) (la : LocArg) (lb : String) (info_inst : Value)
    (filter_by : String) (s : KBState) : Except KBErr (Bool × KBState) :=
  if !isInfoInst info_inst then
    .error (.valueError appendUniqTypeMsg)
  else if filter_by != "URL" && filter_by != "VAR" then
    .error (.valueError appendUniqFilterMsg)
  else
    let fr :=
      if filter_by == "URL" then filter_url fresh la lb info_inst s
      else filter_var fresh la lb info_inst s
    match fr with
    | .error e => .error e
    | .ok (noMatch, s) =>
      if noMatch then
        match append fresh la lb info_inst false s with
        | .error e => .error e
        | .ok s => .ok (true, s)
      else .ok (false, s)

/-- The scan of `append_uniq_group`: first stored InfoSet whose `match`
accepts the candidate; values that are not InfoSet instances are skipped
with `continue`. -/
def findMatch (matchFn : InfoSetData → InfoData → Bool) (i : InfoData) :
    List Value → Option InfoSetData
  | [] => none
  | .infoSet st :: rest =>
    if matchFn st i then some st else findMatch matchFn i rest
  | _ :: rest => findMatch matchFn i rest

/-- `InfoSet.add`: modelled from the spec as appending to the ordered
aggregation. -/
def addInfo (st : InfoSetData) (i : InfoData) : InfoSetData :=
  { st with infos := st.infos ++ [i] }

/-- Extract the InfoData of an Info or Vuln value (guarded by
`isInfoInst`). -/
def infoOf : Value → InfoData
  | .info i => i
  | .vuln i => i
  | _ => dInfo

def groupTypeMsg : String := "append_uniq_group requires an Info instance as parameter."

/-- `BasicKnowledgeBase.append_uniq_group`: under the kb lock, scan the
address for a matching InfoSet; on a match, snapshot it (deepcopy), add the
Info to the live InfoSet and persist through `update` keyed by the
snapshot's identity; otherwise build a new InfoSet with `group_klass` seeded
with the single Info and append it.  `matchFn` stands for the stored
InfoSets' `match` method and `group_klass` for the constructor (the
`issubclass(group_klass, InfoSet)` check is discharged by typing). -/
def append_uniq_group (matchFn : InfoSetData → InfoData → Bool)
    (group_klass : InfoData → InfoSetData) (fresh : String) (la : LocArg)
    (lb : String) (info_inst : Value) (s : KBState) :
    Except KBErr ((InfoSetData × Bool) × KBState) :=
  if !isInfoInst info_inst then
    .error (.typeError groupTypeMsg)
  else
    let i := infoOf info_inst
    match get fresh la (some lb) true s with
    | .error e => .error e
    | .ok (vs, s) =>
      match findMatch matchFn i vs with
      | some st =>
        let old_info_set := st
        let st2 := addInfo st i
        match update fresh (.infoSet old_info_set) (.infoSet st2) s with
        | .error e => .error e
        | .ok s => .ok ((st2, false), s)
      | none =>
        let st := group_klass i
        match append fresh la lb (.infoSet st) false s with
        | .error e => .error e
        | .ok s => .ok ((st, true), s)

/-- The severity test applied by the `get_all_vulns` loop. -/
def isVulnSev (v : Value) : Bool :=
  match getSeverity v with
  | some sev => sev == Severity.LOW || sev == Severity.MEDIUM || sev == Severity.HIGH
  | none => false

/-- The severity test applied by the `get_all_infos` loop. -/
def isInfoSev (v : Value) : Bool :=
  match getSeverity v with
  | some sev => sev == Severity.INFORMATION
  | none => false

/-!
### Concrete fixtures for witnesses and counterexamples
-/

def wFresh : String := "f"

def wFresh2 : String := "g"

def wA : String := "a"

def wB : String := "b"

def wU : String := "u1"

def kbT : String := "kb_t"

def wId1 : String := "id1"

def wId2 : String := "id2"

def wId3 : String := "id3"

def wX : String := "X"

def wY : String := "Y"

def wUrl1 : String := "http://a/1"

def wUrl2 : String := "http://a/2"

def wUrl3 : String := "http://a/3"

def wTok : String := "q"

def wTok2 : String := "p"

def wK1 : String := "k1"

def wK2 : String := "k2"

/-- A store that was constructed but never initialized. -/
def wState0 : KBState := ⟨false, false, emptyStr, [], [], [], [], []⟩

/-- An initialized store with an empty backing table. -/
def wStateDone : KBState := ⟨true, true, kbT, [kbT], [], [], [], []⟩

/-- An initialized store that already knows the URL `wU`. -/
def wUrlState : KBState := ⟨true, true, kbT, [kbT], [], [wU], [], []⟩

def wInfoA : InfoData := ⟨wUrl1, wTok, none, wId1, Severity.LOW⟩

def wInfoB : InfoData := ⟨wUrl2, wTok, none, wId2, Severity.MEDIUM⟩

def cexSet : InfoSetData := ⟨[wInfoA], wTok⟩

def wRec1 : Record := ⟨wA, wB, wId1, Value.info wInfoA⟩

/-- An initialized store holding a single record whose identity is `wId1`. -/
def wUpdState : KBState := ⟨true, true, kbT, [kbT], [wRec1], [], [], []⟩

def cexI1 : InfoData := ⟨wUrl1, wTok, none, wX, Severity.LOW⟩

def cexI2 : InfoData := ⟨wUrl2, wTok, none, wX, Severity.LOW⟩

def cexOld : Value := Value.info cexI1

def cexNew : Value := Value.info ⟨wUrl3, wTok, none, wY, Severity.MEDIUM⟩

/-- Two stored records sharing the content identity `wX` (the spec itself
notes `uniq_id` is not guaranteed globally unique). -/
def cexState1 : KBState :=
  ⟨true, true, kbT, [kbT],
   [⟨wA, wB, wX, Value.info cexI1⟩, ⟨wA, wB, wX, Value.info cexI2⟩],
   [], [], []⟩

def fixVuln : Value := Value.vuln ⟨wUrl1, wTok, none, wId1, Severity.HIGH⟩

def fixInfo : Value := Value.info ⟨wUrl2, wTok, none, wId2, Severity.INFORMATION⟩

def fixRaw : Value := Value.rawStr wX

/-- A severity-query fixture: one Vuln, one Info, one raw record. -/
def fixState : KBState :=
  ⟨true, true, kbT, [kbT],
   [⟨wA, wB, wId1, fixVuln⟩, ⟨wA, wB, wId2, fixInfo⟩, ⟨wA, wB, wX, fixRaw⟩],
   [], [], []⟩

/-- A store holding two records at the same address. -/
def wReadState : KBState :=
  ⟨true, true, kbT, [kbT],
   [⟨wA, wB, wId1, Value.info wInfoA⟩, ⟨wA, wB, wId2, Value.info wInfoB⟩],
   [], [], []⟩

def dI1 : InfoData := ⟨wUrl1, wTok, some [wK1, wK2], wId1, Severity.LOW⟩

def dI2 : InfoData := ⟨wUrl1, wTok, some [wK2, wK1], wId2, Severity.LOW⟩

def mI1 : InfoData := ⟨wUrl1, wTok, none, wId1, Severity.LOW⟩

def mI2 : InfoData := ⟨wUrl1, wTok, some [wK1], wId2, Severity.LOW⟩

/-- A concrete grouping rule: an InfoSet matches an Info whose token equals
the set's grouping tag. -/
def gMatch (st : InfoSetData) (i : InfoData) : Bool := st.tag == i.tokenName

/-- A concrete `group_klass` constructor: seed the InfoSet with the single
Info, keyed by its token. -/
def gCtor (i : InfoData) : InfoSetData := ⟨[i], i.tokenName⟩

def gSet : InfoSetData := ⟨[wInfoA], wTok⟩

def gNew : InfoData := ⟨wUrl2, wTok, none, wId2, Severity.MEDIUM⟩

/-- A store holding one InfoSet record at the address. -/
def gState : KBState :=
  ⟨true, true, kbT, [kbT],
   [⟨wA, wB, infoSetUniqId gSet, Value.infoSet gSet⟩],
   [], [], []⟩

/-!
### Basic lemmas about the lifecycle and the backing-table primitives
-/

theorem setup_setupDone (fresh : String) (s : KBState) :
    (setup fresh s).setupDone = true := by
  unfold setup
  split
  · assumption
  · rfl

theorem ensure_setupDone (fresh : String) (s : KBState) :
    (ensure fresh s).setupDone = true := by
  unfold ensure
  split
  · assumption
  · exact setup_setupDone fresh s

theorem ensure_of_done (fresh : String) {s : KBState} (h : s.setupDone = true) :
    ensure fresh s = s := by
  unfold ensure
  simp [h]

theorem ensure_ensure (fresh : String) (s : KBState) :
    ensure fresh (ensure fresh s) = ensure fresh s :=
  ensure_of_done fresh (ensure_setupDone fresh s)

theorem loadLoop_false (rows : List Record) :
    loadLoop false rows = .ok (rows.map (fun r => r.blob)) := by
  induction rows with
  | nil => rfl
  | cons r rest ih => simp [loadLoop, ih]

theorem loadLoop_true (rows : List Record)
    (h : ∀ r ∈ rows, isFindingInst r.blob = true) :
    loadLoop true rows = .ok (rows.map (fun r => r.blob)) := by
  induction rows with
  | nil => rfl
  | cons r rest ih =>
    have hr : isFindingInst r.blob = true := h r (List.mem_cons_self r rest)
    have ih2 := ih (fun x hx => h x (List.mem_cons_of_mem r hx))
    simp [loadLoop, hr, ih2]

theorem selectRows_append (t u : List Record) (a : String) (lb : Option String) :
    selectRows (t ++ u) a lb = selectRows t a lb ++ selectRows u a lb := by
  unfold selectRows
  cases lb <;> simp [List.filter_append]

theorem mem_of_selectRows {t : List Record} {a : String} {lb : Option String}
    {r : Record} (h : r ∈ selectRows t a lb) : r ∈ t := by
  unfold selectRows at h
  cases lb
  · exact (List.mem_filter.mp h).1
  · exact (List.mem_filter.mp h).1

theorem clearedAt_append (t u : List Record) (a b : String) :
    clearedAt (t ++ u) a b = clearedAt t a b ++ clearedAt u a b := by
  unfold clearedAt
  simp [List.filter_append]

theorem selectRows_clearedAt (t : List Record) (a b : String) :
    selectRows (clearedAt t a b) a (some b) = [] := by
  unfold selectRows clearedAt
  rw [List.filter_filter]
  simp

theorem clearedAt_idem (t : List Record) (a b : String) :
    clearedAt (clearedAt t a b) a b = clearedAt t a b := by
  unfold clearedAt
  rw [List.filter_filter]
  simp

theorem countMatches_pos {t : List Record} {r : Record} {uid : String}
    (hmem : r ∈ t) (huid : r.uniq_id = uid) : 0 < countMatches t uid := by
  unfold countMatches
  exact List.length_pos_of_mem (List.mem_filter.mpr ⟨hmem, by simp [huid]⟩)

theorem rewriteTable_of_zero {t : List Record} {uid : String}
    (h : countMatches t uid = 0) (nu : String) (v : Value) :
    rewriteTable t uid nu v = t := by
  unfold countMatches at h
  unfold rewriteTable
  have hall : ∀ r ∈ t, ¬((fun r : Record => r.uniq_id == uid) r = true) :=
    List.filter_eq_nil_iff.mp (List.length_eq_zero.mp h)
  calc t.map (fun r => if r.uniq_id == uid then { r with uniq_id := nu, blob := v } else r)
      = t.map (fun r => r) := by
        refine List.map_congr_left ?_
        intro r hr
        simp only [Bool.not_eq_true] at hall
        rw [hall r hr]
        rfl
    _ = t := by simp

theorem findMatch_some {m : InfoSetData → InfoData → Bool} {i : InfoData}
    {vs : List Value} {st : InfoSetData} (h : findMatch m i vs = some st) :
    Value.infoSet st ∈ vs ∧ m st i = true := by
  induction vs with
  | nil => simp [findMatch] at h
  | cons v rest ih =>
    cases v <;> simp only [findMatch] at h
    case infoSet st0 =>
      by_cases hm : m st0 i = true
      · rw [if_pos hm] at h
        cases h
        exact ⟨List.mem_cons_self _ _, hm⟩
      · rw [if_neg hm] at h
        obtain ⟨h1, h2⟩ := ih h
        exact ⟨List.mem_cons_of_mem _ h1, h2⟩
    all_goals
      obtain ⟨h1, h2⟩ := ih h
      exact ⟨List.mem_cons_of_mem _ h1, h2⟩

theorem findMatch_none {m : InfoSetData → InfoData → Bool} {i : InfoData}
    {vs : List Value} (h : ∀ st, Value.infoSet st ∈ vs → m st i = false) :
    findMatch m i vs = none := by
  induction vs with
  | nil => rfl
  | cons v rest ih =>
    have ih2 := ih (fun st hst => h st (List.mem_cons_of_mem v hst))
    cases v <;> simp only [findMatch]
    case infoSet st0 =>
      rw [h st0 (List.mem_cons_self _ _)]
      simpa using ih2
    all_goals exact ih2

/-!
### Characterization lemmas for the storage operations
-/

theorem get_ok_of_types (fresh : String) (la : LocArg) (lb : Option String)
    (s : KBState)
    (hty : ∀ r ∈ selectRows (ensure fresh s).table (getRealName la) lb,
      isFindingInst r.blob = true) :
    get fresh la lb true s =
      .ok ((selectRows (ensure fresh s).table (getRealName la) lb).map
             (fun r => r.blob), ensure fresh s) := by
  simp [get, loadLoop_true _ hty]

theorem get_unchecked (fresh : String) (la : LocArg) (lb : Option String)
    (s : KBState) :
    get fresh la lb false s =
      .ok ((selectRows (ensure fresh s).table (getRealName la) lb).map
             (fun r => r.blob), ensure fresh s) := by
  simp [get, loadLoop_false]

theorem append_finding_ok (fresh : String) (la : LocArg) (lb : String)
    (v : Value) (s : KBState) (h : isFindingInst v = true) :
    append fresh la lb v false s =
      .ok { ensure fresh s with
            table := (ensure fresh s).table ++ [⟨getRealName la, lb, getUniqId v, v⟩],
            events := (ensure fresh s).events
                        ++ [KBEvent.append (getRealName la) lb v false] } := by
  simp [append, h]

theorem append_ignore_ok (fresh : String) (la : LocArg) (lb : String)
    (v : Value) (s : KBState) :
    append fresh la lb v true s =
      .ok { ensure fresh s with
            table := (ensure fresh s).table ++ [⟨getRealName la, lb, getUniqId v, v⟩],
            events := (ensure fresh s).events
                        ++ [KBEvent.append (getRealName la) lb v true] } := by
  simp [append]

theorem raw_write_ok (fresh : String) (la : LocArg) (lb : String) (v : Value)
    (s : KBState) (h : isInfoInst v = false) :
    raw_write fresh la lb v s =
      .ok { ensure fresh s with
            table := clearedAt (ensure fresh s).table (getRealName la) lb
                       ++ [⟨getRealName la, lb, getUniqId v, v⟩],
            events := (ensure fresh s).events
                        ++ [KBEvent.append (getRealName la) lb v true] } := by
  simp [raw_write, clear, append, h, ensure_ensure, ensure_of_done,
        ensure_setupDone, getRealName]

theorem update_ok (fresh : String) (old_info update_info : Value) (s : KBState)
    (hold : isFindingInst old_info = true) (hnew : isFindingInst update_info = true)
    (hpos : 0 < countMatches (ensure fresh s).table (valueGetUniqId old_info)) :
    update fresh old_info update_info s =
      .ok { ensure fresh s with
            table := rewriteTable (ensure fresh s).table (valueGetUniqId old_info)
                       (valueGetUniqId update_info) update_info,
            events := (ensure fresh s).events
                        ++ [KBEvent.update old_info update_info] } := by
  simp [update, hold, hnew, hpos]

theorem update_ok_inv {fresh : String} {old_info update_info : Value}
    {s s3 : KBState} (h : update fresh old_info update_info s = .ok s3) :
    s3 = { ensure fresh s with
           table := rewriteTable (ensure fresh s).table (valueGetUniqId old_info)
                      (valueGetUniqId update_info) update_info,
           events := (ensure fresh s).events
                       ++ [KBEvent.update old_info update_info] } := by
  simp only [update] at h
  split at h
  · cases h
  · split at h
    · cases h
      rfl
    · cases h

/-!
### Claim theorems
-/

/-- C8: `setup` is idempotent — a second call on an already-initialized store
performs no initialization (no second backing table is created; the coverage
sets, db handle and table name stay as they are) — and every public store
operation run on an uninitialized store first triggers `setup`, so the
initialization side effect happens exactly once, on first use. -/
theorem setup_lazy_idempotent (fresh fresh2 : String) (la : LocArg) (lb : String)
    (v : Value) (arg : UrlArg) (s : KBState) :
    (s.setupDone = true → setup fresh s = s) ∧
    (ensure fresh s).setupDone = true ∧
    (s.setupDone = false →
      (ensure fresh s).tablesCreated = s.tablesCreated ++ [tableNameOf fresh]) ∧
    clear fresh la lb s = clear fresh la lb (ensure fresh s) ∧
    append fresh la lb v false s = append fresh la lb v false (ensure fresh s) ∧
    get fresh la (some lb) true s = get fresh la (some lb) true (ensure fresh s) ∧
    raw_read fresh la lb s = raw_read fresh la lb (ensure fresh s) ∧
    get_one fresh la lb s = get_one fresh la lb (ensure fresh s) ∧
    raw_write fresh la lb v s = raw_write fresh la lb v (ensure fresh s) ∧
    update fresh v v s = update fresh v v (ensure fresh s) ∧
    get_all_vulns fresh s = get_all_vulns fresh (ensure fresh s) ∧
    get_all_infos fresh s = get_all_infos fresh (ensure fresh s) ∧
    add_url fresh arg s = add_url fresh arg (ensure fresh s) ∧
    (clear fresh2 la lb (clear fresh la lb s)).tablesCreated
      = (clear fresh la lb s).tablesCreated := by
  refine ⟨?_, ensure_setupDone fresh s, ?_, ?_, ?_, ?_, ?_, ?_, ?_, ?_, ?_, ?_, ?_, ?_⟩
  · intro h
    unfold setup
    simp [h]
  · intro h
    simp [ensure, setup, h]
  · simp only [clear, ensure_ensure]
  · simp only [append, ensure_ensure]
  · simp only [get, ensure_ensure]
  · simp only [raw_read, ensure_ensure]
  · simp only [get_one, ensure_ensure]
  · simp only [raw_write, clear, append, ensure_ensure]
  · simp only [update, ensure_ensure]
  · simp only [get_all_vulns, ensure_ensure]
  · simp only [get_all_infos, ensure_ensure]
  · simp only [add_url, ensure_ensure]
  · simp only [clear]
    rw [ensure_of_done fresh2 (by simp [ensure_setupDone])]

/-- C9: `add_url` fires the ADD_URL observer notification unconditionally —
before, and regardless of, the membership test on the known-URL coverage
set — so observers are notified even for duplicate URLs whose `add_url` call
returns false. -/
theorem add_url_notifies_unconditionally (fresh u : String) (s : KBState) :
    (∃ b s2, add_url fresh (UrlArg.url u) s = .ok (b, s2) ∧
       s2.events = (ensure fresh s).events ++ [KBEvent.addUrl u] ∧
       b = !((ensure fresh s).urls.contains u)) ∧
    ((ensure fresh s).urls.contains u = true →
       ∃ s2, add_url fresh (UrlArg.url u) s = .ok (false, s2) ∧
         s2.events = (ensure fresh s).events ++ [KBEvent.addUrl u]) := by
  constructor
  · by_cases h : u ∈ (ensure fresh s).urls
    · have hrun : add_url fresh (UrlArg.url u) s =
          .ok (false, { ensure fresh s with
                        events := (ensure fresh s).events ++ [KBEvent.addUrl u] }) := by
        simp [add_url, h]
      exact ⟨false, _, hrun, by simp, by simp [h]⟩
    · have hrun : add_url fresh (UrlArg.url u) s =
          .ok (true, { ensure fresh s with
                       events := (ensure fresh s).events ++ [KBEvent.addUrl u],
                       urls := (ensure fresh s).urls ++ [u] }) := by
        simp [add_url, h]
      exact ⟨true, _, hrun, by simp, by simp [h]⟩
  · intro h
    have hm : u ∈ (ensure fresh s).urls := by simpa using h
    have hrun : add_url fresh (UrlArg.url u) s =
        .ok (false, { ensure fresh s with
                      events := (ensure fresh s).events ++ [KBEvent.addUrl u] }) := by
      simp [add_url, hm]
    exact ⟨_, hrun, by simp⟩

/-- C4 (amended): `raw_write` rejects every value that is an instance of the
Info class (Info and Vuln values) with a TypeError and stores nothing at the
address; the claim's further assertion that InfoSet values are also rejected
fails — an InfoSet passes the `isinstance(value, Info)` check and is stored
(see the counterexample). -/
theorem raw_write_rejects_info_instances (fresh : String) (la : LocArg)
    (lb : String) (v : Value) (s : KBState) (h : isInfoInst v = true) :
    raw_write fresh la lb v s = .error (.typeError rawWriteMsg) := by
  simp [raw_write, h]

/-- C1 (amended): `update(old, new)` succeeds exactly when old's content
identity matches at least one stored record, rewriting every matching record;
only the zero-match case is rejected, with a store-specific DBException and
no record modified (the SQL UPDATE touches nothing). -/
theorem update_requires_existing_uniq_id (fresh : String)
    (old_info update_info : Value) (s : KBState)
    (hold : isFindingInst old_info = true)
    (hnew : isFindingInst update_info = true) :
    (countMatches (ensure fresh s).table (valueGetUniqId old_info) = 0 →
       update fresh old_info update_info s = .error (.dbException updateFailMsg) ∧
       rewriteTable (ensure fresh s).table (valueGetUniqId old_info)
         (valueGetUniqId update_info) update_info = (ensure fresh s).table) ∧
    (0 < countMatches (ensure fresh s).table (valueGetUniqId old_info) →
       update fresh old_info update_info s =
         .ok { ensure fresh s with
               table := rewriteTable (ensure fresh s).table (valueGetUniqId old_info)
                          (valueGetUniqId update_info) update_info,
               events := (ensure fresh s).events
                           ++ [KBEvent.update old_info update_info] }) := by
  constructor
  · intro h0
    refine ⟨?_, rewriteTable_of_zero h0 _ _⟩
    simp [update, hold, hnew, h0]
  · intro hpos
    exact update_ok fresh old_info update_info s hold hnew hpos

theorem setup_lazy_idempotent_witness :
    setup wFresh wStateDone = wStateDone ∧
    (ensure wFresh wState0).tablesCreated
      = wState0.tablesCreated ++ [tableNameOf wFresh] := by
  constructor
  · exact (setup_lazy_idempotent wFresh wFresh2 (LocArg.str wA) wB (Value.rawInt 0)
      (UrlArg.url wU) wStateDone).1 rfl
  · exact (setup_lazy_idempotent wFresh wFresh2 (LocArg.str wA) wB (Value.rawInt 0)
      (UrlArg.url wU) wState0).2.2.1 rfl

theorem add_url_notifies_unconditionally_witness :
    ∃ s2, add_url wFresh (UrlArg.url wU) wUrlState = .ok (false, s2) ∧
      s2.events = (ensure wFresh wUrlState).events ++ [KBEvent.addUrl wU] :=
  (add_url_notifies_unconditionally wFresh wU wUrlState).2 (by decide)

theorem raw_write_rejects_info_instances_witness :
    raw_write wFresh (LocArg.str wA) wB (Value.info wInfoA) wStateDone =
      .error (.typeError rawWriteMsg) :=
  raw_write_rejects_info_instances wFresh (LocArg.str wA) wB (Value.info wInfoA)
    wStateDone rfl

/-- C4 counterexample: an InfoSet is a Finding value, yet `raw_write` does not
reject it — the call succeeds and stores the InfoSet as the sole record at the
address, because the source only checks `isinstance(value, Info)` and InfoSet
is not an Info. -/
theorem raw_write_accepts_infoset_cex :
    isFindingInst (Value.infoSet cexSet) = true ∧
    raw_write wFresh (LocArg.str wA) wB (Value.infoSet cexSet) wStateDone =
      .ok { wStateDone with
            table := [⟨wA, wB, infoSetUniqId cexSet, Value.infoSet cexSet⟩],
            events := [KBEvent.append wA wB (Value.infoSet cexSet) true] } :=
  ⟨rfl, rfl⟩

theorem update_requires_existing_uniq_id_witness :
    update wFresh (Value.info wInfoA) (Value.info wInfoB) wUpdState =
      .ok { ensure wFresh wUpdState with
            table := rewriteTable (ensure wFresh wUpdState).table
                       (valueGetUniqId (Value.info wInfoA))
                       (valueGetUniqId (Value.info wInfoB)) (Value.info wInfoB),
            events := (ensure wFresh wUpdState).events
                        ++ [KBEvent.update (Value.info wInfoA) (Value.info wInfoB)] } :=
  (update_requires_existing_uniq_id wFresh (Value.info wInfoA) (Value.info wInfoB)
    wUpdState rfl rfl).2 (by decide)

/-- C1 counterexample: with more than one record matching old's `uniq_id`,
the claim says `update` must fail and leave the table unchanged; the code
succeeds and rewrites both matching records. -/
theorem update_two_matches_succeeds_cex :
    1 < countMatches cexState1.table (valueGetUniqId cexOld) ∧
    update wFresh cexOld cexNew cexState1 =
      .ok { cexState1 with
            table := rewriteTable cexState1.table wX wY cexNew,
            events := [KBEvent.update cexOld cexNew] } ∧
    rewriteTable cexState1.table wX wY cexNew ≠ cexState1.table := by
  refine ⟨by decide, by rfl, by decide⟩

theorem vulnsLoop_eq_filter (t : List Record) :
    vulnsLoop t = (t.map (fun r => r.blob)).filter isVulnSev := by
  induction t with
  | nil => rfl
  | cons r rest ih =>
    simp only [vulnsLoop, List.map_cons, List.filter_cons]
    cases hs : getSeverity r.blob with
    | none => simp [isVulnSev, hs, ih]
    | some sev =>
      by_cases hv : (sev == Severity.LOW || sev == Severity.MEDIUM
          || sev == Severity.HIGH) = true
      · simp [isVulnSev, hs, hv, ih]
      · simp [isVulnSev, hs, hv, ih]

theorem infosLoop_eq_filter (t : List Record) :
    infosLoop t = (t.map (fun r => r.blob)).filter isInfoSev := by
  induction t with
  | nil => rfl
  | cons r rest ih =>
    simp only [infosLoop, List.map_cons, List.filter_cons]
    cases hs : getSeverity r.blob with
    | none => simp [isInfoSev, hs, ih]
    | some sev =>
      by_cases hv : (sev == Severity.INFORMATION) = true
      · simp [isInfoSev, hs, hv, ih]
      · simp [isInfoSev, hs, hv, ih]

theorem isVulnSev_not_isInfoSev {v : Value} (h : isVulnSev v = true) :
    isInfoSev v = false := by
  unfold isVulnSev at h
  unfold isInfoSev
  cases hs : getSeverity v with
  | none => rw [hs] at h
  | some sev =>
    rw [hs] at h
    cases sev <;> simp_all

theorem isVulnSev_of_no_severity {v : Value} (h : getSeverity v = none) :
    isVulnSev v = false := by
  unfold isVulnSev
  rw [h]

theorem isInfoSev_of_no_severity {v : Value} (h : getSeverity v = none) :
    isInfoSev v = false := by
  unfold isInfoSev
  rw [h]

/-- C5: `get_all_vulns` returns exactly the stored values whose severity is
LOW, MEDIUM or HIGH; `get_all_infos` returns exactly those whose severity is
INFORMATION; the two result sets are disjoint; and a value without a
severity concept appears in neither. -/
theorem severity_partition (fresh : String) (s : KBState) :
    (get_all_vulns fresh s).1
        = ((ensure fresh s).table.map (fun r => r.blob)).filter isVulnSev ∧
    (get_all_infos fresh s).1
        = ((ensure fresh s).table.map (fun r => r.blob)).filter isInfoSev ∧
    (∀ v, v ∈ (get_all_vulns fresh s).1 → v ∉ (get_all_infos fresh s).1) ∧
    (∀ v, getSeverity v = none →
        v ∉ (get_all_vulns fresh s).1 ∧ v ∉ (get_all_infos fresh s).1) := by
  have h1 : (get_all_vulns fresh s).1
      = ((ensure fresh s).table.map (fun r => r.blob)).filter isVulnSev := by
    simp [get_all_vulns, vulnsLoop_eq_filter]
  have h2 : (get_all_infos fresh s).1
      = ((ensure fresh s).table.map (fun r => r.blob)).filter isInfoSev := by
    simp [get_all_infos, infosLoop_eq_filter]
  refine ⟨h1, h2, ?_, ?_⟩
  · intro v hv
    rw [h1] at hv
    rw [h2]
    have hvs := (List.mem_filter.mp hv).2
    intro hmem
    have his := (List.mem_filter.mp hmem).2
    rw [isVulnSev_not_isInfoSev hvs] at his
    cases his
  · intro v hnone
    constructor
    · rw [h1]
      intro hmem
      have := (List.mem_filter.mp hmem).2
      rw [isVulnSev_of_no_severity hnone] at this
      cases this
    · rw [h2]
      intro hmem
      have := (List.mem_filter.mp hmem).2
      rw [isInfoSev_of_no_severity hnone] at this
      cases this

theorem severity_partition_witness :
    fixVuln ∉ (get_all_infos wFresh fixState).1 ∧
    fixRaw ∉ (get_all_vulns wFresh fixState).1 ∧
    fixRaw ∉ (get_all_infos wFresh fixState).1 := by
  refine ⟨?_, ?_⟩
  · exact (severity_partition wFresh fixState).2.2.1 fixVuln (by decide)
  · exact (severity_partition wFresh fixState).2.2.2 fixRaw rfl

theorem raw_read_eq (fresh : String) (la : LocArg) (lb : String) (s : KBState) :
    raw_read fresh la lb s =
      if ((selectRows (ensure fresh s).table (getRealName la) (some lb)).map
            (fun r => r.blob)).length > 1
      then .error (.runtimeError rawReadMsg)
      else
        match (selectRows (ensure fresh s).table (getRealName la) (some lb)).map
            (fun r => r.blob) with
        | [] => .ok (.emptyList, ensure fresh s)
        | v :: _ => .ok (.val v, ensure fresh s) := by
  simp only [raw_read]
  rw [get_unchecked fresh (LocArg.str (getRealName la)) (some lb) (ensure fresh s)]
  rw [ensure_ensure]
  rfl

theorem get_one_eq (fresh : String) (la : LocArg) (lb : String) (s : KBState)
    (hty : ∀ r ∈ selectRows (ensure fresh s).table (getRealName la) (some lb),
      isFindingInst r.blob = true) :
    get_one fresh la lb s =
      if ((selectRows (ensure fresh s).table (getRealName la) (some lb)).map
            (fun r => r.blob)).length > 1
      then .error (.runtimeError getOneMsg)
      else
        match (selectRows (ensure fresh s).table (getRealName la) (some lb)).map
            (fun r => r.blob) with
        | [] => .ok (.emptyList, ensure fresh s)
        | v :: _ => .ok (.val v, ensure fresh s) := by
  have hty2 : ∀ r ∈ selectRows (ensure fresh (ensure fresh s)).table
      (getRealName (LocArg.str (getRealName la))) (some lb),
      isFindingInst r.blob = true := by
    rw [ensure_ensure]
    exact hty
  simp only [get_one]
  rw [get_ok_of_types fresh (LocArg.str (getRealName la)) (some lb)
    (ensure fresh s) hty2]
  rw [ensure_ensure]
  rfl

/-- C6: at any address, `raw_read` (and `get_one`, under the same cardinality
contract but with Finding type checking) returns the single stored value when
exactly one record exists, returns the Python empty list when none exists,
and fails with a RuntimeError logic error when more than one record exists. -/
theorem read_one_cardinality (fresh : String) (la : LocArg) (lb : String)
    (s : KBState) :
    (selectRows (ensure fresh s).table (getRealName la) (some lb) = [] →
       raw_read fresh la lb s = .ok (.emptyList, ensure fresh s) ∧
       get_one fresh la lb s = .ok (.emptyList, ensure fresh s)) ∧
    (∀ r, selectRows (ensure fresh s).table (getRealName la) (some lb) = [r] →
       raw_read fresh la lb s = .ok (.val r.blob, ensure fresh s) ∧
       (isFindingInst r.blob = true →
          get_one fresh la lb s = .ok (.val r.blob, ensure fresh s))) ∧
    (1 < (selectRows (ensure fresh s).table (getRealName la) (some lb)).length →
       raw_read fresh la lb s = .error (.runtimeError rawReadMsg) ∧
       ((∀ r ∈ selectRows (ensure fresh s).table (getRealName la) (some lb),
            isFindingInst r.blob = true) →
          get_one fresh la lb s = .error (.runtimeError getOneMsg))) := by
  refine ⟨?_, ?_, ?_⟩
  · intro h0
    constructor
    · rw [raw_read_eq, h0]
      rfl
    · rw [get_one_eq fresh la lb s (by rw [h0]; intro r hr; cases hr), h0]
      rfl
  · intro r h1
    constructor
    · rw [raw_read_eq, h1]
      rfl
    · intro hf
      rw [get_one_eq fresh la lb s
        (by rw [h1]; intro x hx; rw [List.mem_singleton.mp hx]; exact hf), h1]
      rfl
  · intro hlen
    have hlen2 : ((selectRows (ensure fresh s).table (getRealName la)
        (some lb)).map (fun r => r.blob)).length > 1 := by
      simpa using hlen
    constructor
    · rw [raw_read_eq, if_pos hlen2]
    · intro hf
      rw [get_one_eq fresh la lb s hf, if_pos hlen2]

theorem read_one_cardinality_witness :
    raw_read wFresh (LocArg.str wA) wB wReadState
        = .error (.runtimeError rawReadMsg) ∧
    get_one wFresh (LocArg.str wA) wB wReadState
        = .error (.runtimeError getOneMsg) := by
  have h := (read_one_cardinality wFresh (LocArg.str wA) wB wReadState).2.2
    (by decide)
  exact ⟨h.1, h.2 (by decide)⟩

theorem clearedAt_single_addr (a b uid : String) (v : Value) :
    clearedAt [⟨a, b, uid, v⟩] a b = [] := by
  simp [clearedAt]

theorem selectRows_single_addr (a b uid : String) (v : Value) :
    selectRows [⟨a, b, uid, v⟩] a (some b) = [⟨a, b, uid, v⟩] := by
  simp [selectRows]

/-- C7: two consecutive `raw_write` calls with non-Info values leave exactly
one record at the address — the second value replaces the first — whereas two
consecutive `append` calls with Finding values at the same address accumulate:
both records are stored (exactly two when the address started empty). -/
theorem raw_replace_append_accumulate (fresh : String) (la : LocArg) (lb : String)
    (v1 v2 w1 w2 : Value) (s : KBState)
    (h1 : isInfoInst v1 = false) (h2 : isInfoInst v2 = false)
    (g1 : isFindingInst w1 = true) (g2 : isFindingInst w2 = true) :
    (∃ s1 s2, raw_write fresh la lb v1 s = .ok s1 ∧
       raw_write fresh la lb v2 s1 = .ok s2 ∧
       selectRows s2.table (getRealName la) (some lb)
         = [⟨getRealName la, lb, getUniqId v2, v2⟩]) ∧
    (∃ s1 s2, append fresh la lb w1 false s = .ok s1 ∧
       append fresh la lb w2 false s1 = .ok s2 ∧
       selectRows s2.table (getRealName la) (some lb)
         = selectRows (ensure fresh s).table (getRealName la) (some lb)
             ++ [⟨getRealName la, lb, getUniqId w1, w1⟩,
                 ⟨getRealName la, lb, getUniqId w2, w2⟩]) ∧
    (selectRows (ensure fresh s).table (getRealName la) (some lb) = [] →
       ∃ s1 s2, append fresh la lb w1 false s = .ok s1 ∧
         append fresh la lb w2 false s1 = .ok s2 ∧
         (selectRows s2.table (getRealName la) (some lb)).length = 2) := by
  refine ⟨?_, ?_, ?_⟩
  · refine ⟨_, _, raw_write_ok fresh la lb v1 s h1,
      raw_write_ok fresh la lb v2 _ h2, ?_⟩
    rw [ensure_of_done fresh (by simp [ensure_setupDone])]
    simp only [clearedAt_append, clearedAt_idem, clearedAt_single_addr,
      List.append_nil, selectRows_append, selectRows_clearedAt,
      selectRows_single_addr, List.nil_append]
  · refine ⟨_, _, append_finding_ok fresh la lb w1 s g1,
      append_finding_ok fresh la lb w2 _ g2, ?_⟩
    rw [ensure_of_done fresh (by simp [ensure_setupDone])]
    simp [selectRows_append, selectRows]
  · intro h0
    refine ⟨_, _, append_finding_ok fresh la lb w1 s g1,
      append_finding_ok fresh la lb w2 _ g2, ?_⟩
    rw [ensure_of_done fresh (by simp [ensure_setupDone])]
    simp only [selectRows_append, h0, List.nil_append]
    simp [selectRows]

theorem raw_replace_append_accumulate_witness :
    (∃ s1 s2, raw_write wFresh (LocArg.str wA) wB (Value.rawInt 1) wStateDone
          = .ok s1 ∧
       raw_write wFresh (LocArg.str wA) wB (Value.rawInt 2) s1 = .ok s2 ∧
       selectRows s2.table (getRealName (LocArg.str wA)) (some wB)
         = [⟨getRealName (LocArg.str wA), wB, getUniqId (Value.rawInt 2),
             Value.rawInt 2⟩]) ∧
    (∃ s1 s2, append wFresh (LocArg.str wA) wB (Value.info wInfoA) false wStateDone
          = .ok s1 ∧
       append wFresh (LocArg.str wA) wB (Value.vuln wInfoB) false s1 = .ok s2 ∧
       (selectRows s2.table (getRealName (LocArg.str wA)) (some wB)).length = 2) := by
  have h := raw_replace_append_accumulate wFresh (LocArg.str wA) wB
    (Value.rawInt 1) (Value.rawInt 2) (Value.info wInfoA) (Value.vuln wInfoB)
    wStateDone rfl rfl rfl rfl
  exact ⟨h.1, h.2.2 (by decide)⟩

theorem filter_var_eq (fresh : String) (la : LocArg) (lb : String) (cand : Value)
    (s : KBState)
    (hty : ∀ r ∈ selectRows (ensure fresh s).table (getRealName la) (some lb),
      isFindingInst r.blob = true) :
    filter_var fresh la lb cand s =
      .ok (varLoopNoMatch (valueTokenName cand) (valueUrl cand) (valueDc cand)
             ((selectRows (ensure fresh s).table (getRealName la) (some lb)).map
               (fun r => r.blob)),
           ensure fresh s) := by
  simp only [filter_var]
  rw [get_ok_of_types fresh la (some lb) s hty]

theorem append_uniq_VAR_eq (fresh : String) (la : LocArg) (lb : String)
    (v : Value) (s : KBState) (hv : isInfoInst v = true) :
    append_uniq fresh la lb v filterVAR s =
      match filter_var fresh la lb v s with
      | .error e => .error e
      | .ok (noMatch, s1) =>
        if noMatch then
          match append fresh la lb v false s1 with
          | .error e => .error e
          | .ok s2 => .ok (true, s2)
        else .ok (false, s1) := by
  simp only [append_uniq, hv, filterVAR]
  rfl

theorem varLoop_single_dup {i1 i2 : InfoData} (hurl : i1.url = i2.url)
    (htok : i1.tokenName = i2.tokenName) (hdc : dcEquiv i1.dc i2.dc = true) :
    varLoopNoMatch i2.tokenName i2.url i2.dc [Value.info i1] = false := by
  have hbtok : (i1.tokenName == i2.tokenName) = true := by rw [htok]; simp
  have hburl : (i1.url == i2.url) = true := by rw [hurl]; simp
  simp only [varLoopNoMatch, valueTokenName, valueUrl, valueDc, hbtok, hburl,
    Bool.and_self, if_true]
  rcases hd1 : i1.dc with _ | xs
  · rcases hd2 : i2.dc with _ | ys
    · rfl
    · rw [hd1, hd2] at hdc
      simp [dcEquiv] at hdc
  · rcases hd2 : i2.dc with _ | ys
    · rw [hd1, hd2] at hdc
      simp [dcEquiv] at hdc
    · rw [hd1, hd2] at hdc
      simp only [dcEquiv] at hdc
      simp [hdc]

theorem varLoop_single_mixed (i1 i2 : InfoData)
    (hmix : dcMixed i1.dc i2.dc = true) :
    varLoopNoMatch i2.tokenName i2.url i2.dc [Value.info i1] = true := by
  simp only [varLoopNoMatch, valueTokenName, valueUrl, valueDc]
  by_cases hcond : (i1.tokenName == i2.tokenName && i1.url == i2.url) = true
  · rw [if_pos hcond]
    rcases hd1 : i1.dc with _ | xs <;> rcases hd2 : i2.dc with _ | ys <;>
      first
        | rfl
        | (rw [hd1, hd2] at hmix; simp [dcMixed] at hmix)
  · rw [if_neg hcond]

/-- C2: under the VAR filter, two Infos with equal URL, equal token name, and
data-containers that are both absent or both present with the same key sets
(order-insensitively) deduplicate: the first `append_uniq` returns "added",
the second returns "not added", and exactly one record is stored at the
address; while mismatched data-container presence never matches, so both
calls store (two records). -/
theorem append_uniq_var_dedup (fresh : String) (la : LocArg) (lb : String)
    (i1 i2 : InfoData) (s : KBState)
    (hempty : selectRows (ensure fresh s).table (getRealName la) (some lb) = [])
    (hurl : i1.url = i2.url) (htok : i1.tokenName = i2.tokenName) :
    (dcEquiv i1.dc i2.dc = true →
       ∃ s1 s2, append_uniq fresh la lb (Value.info i1) filterVAR s = .ok (true, s1) ∧
         append_uniq fresh la lb (Value.info i2) filterVAR s1 = .ok (false, s2) ∧
         (selectRows s2.table (getRealName la) (some lb)).length = 1) ∧
    (dcMixed i1.dc i2.dc = true →
       ∃ s1 s2, append_uniq fresh la lb (Value.info i1) filterVAR s = .ok (true, s1) ∧
         append_uniq fresh la lb (Value.info i2) filterVAR s1 = .ok (true, s2) ∧
         (selectRows s2.table (getRealName la) (some lb)).length = 2) := by
  have he : (ensure fresh s).setupDone = true := ensure_setupDone fresh s
  have hfv1 : filter_var fresh la lb (Value.info i1) s = .ok (true, ensure fresh s) := by
    rw [filter_var_eq fresh la lb (Value.info i1) s
      (by rw [hempty]; intro r hr; cases hr)]
    rw [hempty]
    rfl
  have happ1 := append_finding_ok fresh la lb (Value.info i1) (ensure fresh s) rfl
  rw [ensure_of_done fresh he] at happ1
  have hfirst : append_uniq fresh la lb (Value.info i1) filterVAR s =
      .ok (true, { ensure fresh s with
                   table := (ensure fresh s).table
                              ++ [⟨getRealName la, lb, getUniqId (Value.info i1),
                                   Value.info i1⟩],
                   events := (ensure fresh s).events
                               ++ [KBEvent.append (getRealName la) lb
                                     (Value.info i1) false] }) := by
    rw [append_uniq_VAR_eq fresh la lb (Value.info i1) s rfl, hfv1]
    simp [happ1]
  have hgen : ∀ t : KBState, t.setupDone = true →
      selectRows t.table (getRealName la) (some lb)
        = [⟨getRealName la, lb, getUniqId (Value.info i1), Value.info i1⟩] →
      (dcEquiv i1.dc i2.dc = true →
        append_uniq fresh la lb (Value.info i2) filterVAR t = .ok (false, t)) ∧
      (dcMixed i1.dc i2.dc = true →
        ∃ t2, append_uniq fresh la lb (Value.info i2) filterVAR t = .ok (true, t2) ∧
          selectRows t2.table (getRealName la) (some lb)
            = [⟨getRealName la, lb, getUniqId (Value.info i1), Value.info i1⟩,
               ⟨getRealName la, lb, getUniqId (Value.info i2), Value.info i2⟩]) := by
    intro t ht hsel
    have hty : ∀ r ∈ selectRows (ensure fresh t).table (getRealName la) (some lb),
        isFindingInst r.blob = true := by
      rw [ensure_of_done fresh ht, hsel]
      intro r hr
      rw [List.mem_singleton.mp hr]
      rfl
    constructor
    · intro hdc
      have hfv2 : filter_var fresh la lb (Value.info i2) t = .ok (false, t) := by
        rw [filter_var_eq fresh la lb (Value.info i2) t hty]
        rw [ensure_of_done fresh ht, hsel]
        simp only [List.map_cons, List.map_nil]
        rw [show valueTokenName (Value.info i2) = i2.tokenName from rfl,
          show valueUrl (Value.info i2) = i2.url from rfl,
          show valueDc (Value.info i2) = i2.dc from rfl,
          varLoop_single_dup hurl htok hdc]
      rw [append_uniq_VAR_eq fresh la lb (Value.info i2) t rfl, hfv2]
      rfl
    · intro hmix
      have hfv2 : filter_var fresh la lb (Value.info i2) t = .ok (true, t) := by
        rw [filter_var_eq fresh la lb (Value.info i2) t hty]
        rw [ensure_of_done fresh ht, hsel]
        simp only [List.map_cons, List.map_nil]
        rw [show valueTokenName (Value.info i2) = i2.tokenName from rfl,
          show valueUrl (Value.info i2) = i2.url from rfl,
          show valueDc (Value.info i2) = i2.dc from rfl,
          varLoop_single_mixed i1 i2 hmix]
      have happ2 := append_finding_ok fresh la lb (Value.info i2) t rfl
      rw [ensure_of_done fresh ht] at happ2
      refine ⟨{ t with
                table := t.table ++ [⟨getRealName la, lb, getUniqId (Value.info i2),
                                      Value.info i2⟩],
                events := t.events ++ [KBEvent.append (getRealName la) lb
                                         (Value.info i2) false] }, ?_, ?_⟩
      · rw [append_uniq_VAR_eq fresh la lb (Value.info i2) t rfl, hfv2]
        simp [happ2]
      · simp only [selectRows_append, hsel]
        simp [selectRows]
  have hd1 : ({ ensure fresh s with
      table := (ensure fresh s).table
                 ++ [⟨getRealName la, lb, getUniqId (Value.info i1), Value.info i1⟩],
      events := (ensure fresh s).events
                  ++ [KBEvent.append (getRealName la) lb (Value.info i1) false] }
      : KBState).setupDone = true := he
  have hselFirst : selectRows ({ ensure fresh s with
      table := (ensure fresh s).table
                 ++ [⟨getRealName la, lb, getUniqId (Value.info i1), Value.info i1⟩],
      events := (ensure fresh s).events
                  ++ [KBEvent.append (getRealName la) lb (Value.info i1) false] }
      : KBState).table (getRealName la) (some lb)
      = [⟨getRealName la, lb, getUniqId (Value.info i1), Value.info i1⟩] := by
    simp only [selectRows_append, hempty, List.nil_append]
    simp [selectRows]
  have hG := hgen _ hd1 hselFirst
  constructor
  · intro hdc
    refine ⟨_, _, hfirst, hG.1 hdc, ?_⟩
    rw [hselFirst]
    rfl
  · intro hmix
    obtain ⟨t2, h2, hsel2⟩ := hG.2 hmix
    refine ⟨_, t2, hfirst, h2, ?_⟩
    rw [hsel2]
    rfl

theorem append_uniq_var_dedup_witness :
    ∃ s1 s2, append_uniq wFresh (LocArg.str wA) wB (Value.info dI1) filterVAR
        wStateDone = .ok (true, s1) ∧
      append_uniq wFresh (LocArg.str wA) wB (Value.info dI2) filterVAR s1
        = .ok (false, s2) ∧
      (selectRows s2.table (getRealName (LocArg.str wA)) (some wB)).length = 1 :=
  (append_uniq_var_dedup wFresh (LocArg.str wA) wB dI1 dI2 wStateDone
    (by decide) rfl rfl).1 (by decide)

theorem append_uniq_group_eq (matchFn : InfoSetData → InfoData → Bool)
    (group_klass : InfoData → InfoSetData) (fresh : String) (la : LocArg)
    (lb : String) (i : InfoData) (s : KBState)
    (hty : ∀ r ∈ selectRows (ensure fresh s).table (getRealName la) (some lb),
      isFindingInst r.blob = true) :
    append_uniq_group matchFn group_klass fresh la lb (Value.info i) s =
      match findMatch matchFn i ((selectRows (ensure fresh s).table
          (getRealName la) (some lb)).map (fun r => r.blob)) with
      | some st =>
        (match update fresh (Value.infoSet st) (Value.infoSet (addInfo st i))
            (ensure fresh s) with
         | .error e => .error e
         | .ok s3 => .ok ((addInfo st i, false), s3))
      | none =>
        (match append fresh la lb (Value.infoSet (group_klass i)) false
            (ensure fresh s) with
         | .error e => .error e
         | .ok s3 => .ok ((group_klass i, true), s3)) := by
  simp only [append_uniq_group]
  rw [get_ok_of_types fresh la (some lb) s hty]
  rfl

theorem mem_rewriteTable_of_ne {t : List Record} {r : Record} {uid nu : String}
    {v : Value} (hr : r ∈ t) (hne : r.uniq_id ≠ uid) :
    r ∈ rewriteTable t uid nu v := by
  unfold rewriteTable
  refine List.mem_map.mpr ⟨r, hr, ?_⟩
  rw [if_neg (by simp [hne])]

/-- C3: `append_uniq_group` with a stored InfoSet at the address whose
`match(info)` holds: the first matching InfoSet is snapshotted before
mutation (the update notification carries the pre-mutation copy), the Info is
added to the live InfoSet, the update is persisted keyed by the InfoSet's
prior identity, and the call returns that InfoSet with created=false; with no
match, a new InfoSet built by the given constructor seeded with the single
Info is stored as a new record at the address and returned with
created=true. -/
theorem append_uniq_group_merge_or_create
    (matchFn : InfoSetData → InfoData → Bool)
    (group_klass : InfoData → InfoSetData) (fresh : String) (la : LocArg)
    (lb : String) (i : InfoData) (s : KBState)
    (hty : ∀ r ∈ selectRows (ensure fresh s).table (getRealName la) (some lb),
      isFindingInst r.blob = true)
    (hwf : ∀ r ∈ (ensure fresh s).table, r.uniq_id = getUniqId r.blob) :
    (∀ st, findMatch matchFn i ((selectRows (ensure fresh s).table
          (getRealName la) (some lb)).map (fun r => r.blob)) = some st →
       append_uniq_group matchFn group_klass fresh la lb (Value.info i) s =
         .ok ((addInfo st i, false),
              { ensure fresh s with
                table := rewriteTable (ensure fresh s).table (infoSetUniqId st)
                           (infoSetUniqId (addInfo st i))
                           (Value.infoSet (addInfo st i)),
                events := (ensure fresh s).events
                            ++ [KBEvent.update (Value.infoSet st)
                                  (Value.infoSet (addInfo st i))] })) ∧
    (findMatch matchFn i ((selectRows (ensure fresh s).table
          (getRealName la) (some lb)).map (fun r => r.blob)) = none →
       append_uniq_group matchFn group_klass fresh la lb (Value.info i) s =
         .ok ((group_klass i, true),
              { ensure fresh s with
                table := (ensure fresh s).table
                           ++ [⟨getRealName la, lb, infoSetUniqId (group_klass i),
                                Value.infoSet (group_klass i)⟩],
                events := (ensure fresh s).events
                            ++ [KBEvent.append (getRealName la) lb
                                  (Value.infoSet (group_klass i)) false] })) := by
  have he : (ensure fresh s).setupDone = true := ensure_setupDone fresh s
  constructor
  · intro st hfind
    obtain ⟨hmem, hm⟩ := findMatch_some hfind
    obtain ⟨r, hr, hbr⟩ := List.mem_map.mp hmem
    have hrt : r ∈ (ensure fresh s).table := mem_of_selectRows hr
    have hpos : 0 < countMatches (ensure fresh s).table
        (valueGetUniqId (Value.infoSet st)) := by
      refine countMatches_pos hrt ?_
      rw [hwf r hrt, hbr]
      rfl
    have hupd := update_ok fresh (Value.infoSet st) (Value.infoSet (addInfo st i))
      (ensure fresh s) rfl rfl (by rw [ensure_of_done fresh he]; exact hpos)
    rw [ensure_of_done fresh he] at hupd
    have hstep : append_uniq_group matchFn group_klass fresh la lb (Value.info i) s =
        match update fresh (Value.infoSet st) (Value.infoSet (addInfo st i))
            (ensure fresh s) with
        | .error e => .error e
        | .ok s3 => .ok ((addInfo st i, false), s3) := by
      rw [append_uniq_group_eq matchFn group_klass fresh la lb i s hty, hfind]
    rw [hstep, hupd]
    rfl
  · intro hnone
    have happ := append_finding_ok fresh la lb (Value.infoSet (group_klass i))
      (ensure fresh s) rfl
    rw [ensure_of_done fresh he] at happ
    have hstep : append_uniq_group matchFn group_klass fresh la lb (Value.info i) s =
        match append fresh la lb (Value.infoSet (group_klass i)) false
            (ensure fresh s) with
        | .error e => .error e
        | .ok s3 => .ok ((group_klass i, true), s3) := by
      rw [append_uniq_group_eq matchFn group_klass fresh la lb i s hty, hnone]
    rw [hstep, happ]
    rfl

theorem append_uniq_group_merge_or_create_witness :
    append_uniq_group gMatch gCtor wFresh (LocArg.str wA) wB (Value.info gNew)
        gState =
      .ok ((addInfo gSet gNew, false),
           { ensure wFresh gState with
             table := rewriteTable (ensure wFresh gState).table (infoSetUniqId gSet)
                        (infoSetUniqId (addInfo gSet gNew))
                        (Value.infoSet (addInfo gSet gNew)),
             events := (ensure wFresh gState).events
                         ++ [KBEvent.update (Value.infoSet gSet)
                               (Value.infoSet (addInfo gSet gNew))] }) :=
  (append_uniq_group_merge_or_create gMatch gCtor wFresh (LocArg.str wA) wB gNew
    gState (by decide) (by decide)).1 gSet (by rfl)

/-- C10: `append_uniq_group` considers only InfoSet records when scanning the
address: when every InfoSet stored at the address fails `match` (in
particular when only plain Info/Vuln records are stored there), the call
creates a new record and every previously stored record is untouched; and a
created=false result can only come from a stored InfoSet whose `match`
accepted the Info — the merge rewrites exactly the records carrying that
InfoSet's identity, preserving every other record. -/
theorem append_uniq_group_skips_non_infosets
    (matchFn : InfoSetData → InfoData → Bool)
    (group_klass : InfoData → InfoSetData) (fresh : String) (la : LocArg)
    (lb : String) (i : InfoData) (s : KBState)
    (hty : ∀ r ∈ selectRows (ensure fresh s).table (getRealName la) (some lb),
      isFindingInst r.blob = true) :
    ((∀ st, Value.infoSet st ∈ (selectRows (ensure fresh s).table
          (getRealName la) (some lb)).map (fun r => r.blob) →
        matchFn st i = false) →
       append_uniq_group matchFn group_klass fresh la lb (Value.info i) s =
         .ok ((group_klass i, true),
              { ensure fresh s with
                table := (ensure fresh s).table
                           ++ [⟨getRealName la, lb, infoSetUniqId (group_klass i),
                                Value.infoSet (group_klass i)⟩],
                events := (ensure fresh s).events
                            ++ [KBEvent.append (getRealName la) lb
                                  (Value.infoSet (group_klass i)) false] })) ∧
    (∀ st2 s2, append_uniq_group matchFn group_klass fresh la lb (Value.info i) s
         = .ok ((st2, false), s2) →
       ∃ st, Value.infoSet st ∈ (selectRows (ensure fresh s).table
           (getRealName la) (some lb)).map (fun r => r.blob) ∧
         matchFn st i = true ∧ st2 = addInfo st i ∧
         s2.table = rewriteTable (ensure fresh s).table (infoSetUniqId st)
                      (infoSetUniqId (addInfo st i)) (Value.infoSet (addInfo st i)) ∧
         (∀ r ∈ (ensure fresh s).table, r.uniq_id ≠ infoSetUniqId st →
            r ∈ s2.table)) := by
  have he : (ensure fresh s).setupDone = true := ensure_setupDone fresh s
  constructor
  · intro hnomatch
    have happ := append_finding_ok fresh la lb (Value.infoSet (group_klass i))
      (ensure fresh s) rfl
    rw [ensure_of_done fresh he] at happ
    have hstep : append_uniq_group matchFn group_klass fresh la lb (Value.info i) s =
        match append fresh la lb (Value.infoSet (group_klass i)) false
            (ensure fresh s) with
        | .error e => .error e
        | .ok s3 => .ok ((group_klass i, true), s3) := by
      rw [append_uniq_group_eq matchFn group_klass fresh la lb i s hty,
        findMatch_none hnomatch]
    rw [hstep, happ]
    rfl
  · intro st2 s2 hres
    cases hfm : findMatch matchFn i ((selectRows (ensure fresh s).table
        (getRealName la) (some lb)).map (fun r => r.blob)) with
    | none =>
      have happ := append_finding_ok fresh la lb (Value.infoSet (group_klass i))
        (ensure fresh s) rfl
      rw [ensure_of_done fresh he] at happ
      have hstep : append_uniq_group matchFn group_klass fresh la lb (Value.info i) s =
          match append fresh la lb (Value.infoSet (group_klass i)) false
              (ensure fresh s) with
          | .error e => .error e
          | .ok s3 => .ok ((group_klass i, true), s3) := by
        rw [append_uniq_group_eq matchFn group_klass fresh la lb i s hty, hfm]
      rw [hstep, happ] at hres
      simp at hres
    | some st =>
      have hstep : append_uniq_group matchFn group_klass fresh la lb (Value.info i) s =
          match update fresh (Value.infoSet st) (Value.infoSet (addInfo st i))
              (ensure fresh s) with
          | .error e => .error e
          | .ok s3 => .ok ((addInfo st i, false), s3) := by
        rw [append_uniq_group_eq matchFn group_klass fresh la lb i s hty, hfm]
      rw [hstep] at hres
      cases hu : update fresh (Value.infoSet st) (Value.infoSet (addInfo st i))
          (ensure fresh s) with
      | error e =>
        rw [hu] at hres
        simp at hres
      | ok s3 =>
        rw [hu] at hres
        simp only [Except.ok.injEq, Prod.mk.injEq] at hres
        obtain ⟨⟨hst, -⟩, hs2⟩ := hres
        have htab := update_ok_inv hu
        rw [ensure_ensure] at htab
        obtain ⟨hmem, hm⟩ := findMatch_some hfm
        refine ⟨st, hmem, hm, hst.symm, ?_, ?_⟩
        · rw [← hs2, htab]
          rfl
        · intro r hrt hne
          rw [← hs2, htab]
          exact mem_rewriteTable_of_ne hrt hne

theorem append_uniq_group_skips_non_infosets_witness :
    append_uniq_group gMatch gCtor wFresh (LocArg.str wA) wB (Value.info gNew)
        wUpdState =
      .ok ((gCtor gNew, true),
           { ensure wFresh wUpdState with
             table := (ensure wFresh wUpdState).table
                        ++ [⟨getRealName (LocArg.str wA), wB,
                             infoSetUniqId (gCtor gNew),
                             Value.infoSet (gCtor gNew)⟩],
             events := (ensure wFresh wUpdState).events
                         ++ [KBEvent.append (getRealName (LocArg.str wA)) wB
                               (Value.infoSet (gCtor gNew)) false] }) :=
  (append_uniq_group_skips_non_infosets gMatch gCtor wFresh (LocArg.str wA) wB
    gNew wUpdState (by decide)).1
    (by
      intro st hst
      rw [show (selectRows (ensure wFresh wUpdState).table
            (getRealName (LocArg.str wA)) (some wB)).map (fun r => r.blob)
          = [Value.info wInfoA] from by decide] at hst
      simp at hst)

end W3afKB
